import Mathlib

/-!
# Verification of the DraftKings tennis odds scraper

A shallow embedding, in Lean 4, of the core logic of the
`tennis-odds-scraper-df` repository: the odds normalization pipeline
(`src/transformer.ts`, both the Content-API "flat" variant and the
eventGroup "grouped" variant), the tournament catalog resolver
(`src/draftkings.ts` / `src/config.ts`), and the response-observer
control flow of the capture functions.

JavaScript machine values are modelled as follows: strings are Lean
`String`s, JS numbers used as identifiers/odds are `Int`/`Nat`, JS
numbers used as decimal odds or line values are `ℚ`, `undefined`/`null`
become `Option`, and `NaN` results of `parseInt` become `none`.  The
host clock (`new Date()`) and the host date parser
(`new Date(string)`) are passed explicitly: a `now : Int` timestamp and
a `parseDate : String → Option Int` function (`none` models an Invalid
Date, whose `<` comparison is always false in JS).
-/

/-! ## JavaScript string primitives -/

/-- JS `a || b` for a possibly-undefined string `a`: `a` when it is
defined and nonempty (truthy), else `b`. -/
def jsOrOpt (a : Option String) (b : String) : String :=
  match a with
  | some s => if s = "" then b else s
  | none => b

/-- JS `a || b` for a definitely-present string `a`. -/
def jsOrStr (a b : String) : String :=
  if a = "" then b else a

/-- JS `a || b || c` for two possibly-undefined strings. -/
def jsOr2 (a b : Option String) (c : String) : String :=
  jsOrOpt a (jsOrOpt b c)

/-- JS nullish coalescing `a ?? b` on optional values. -/
def jsNullish {α : Type} (a b : Option α) : Option α :=
  match a with
  | some v => some v
  | none => b

/-- Does the character list `needle` occur at the head of `hay`? -/
def startsWithChars : List Char → List Char → Bool
  | [], _ => true
  | _ :: _, [] => false
  | a :: as, b :: bs => a = b && startsWithChars as bs

/-- Does `sub` occur as a contiguous sublist of `hay`?  Models JS
`String.prototype.includes` on the underlying character lists. -/
def containsChars : List Char → List Char → Bool
  | [], sub => sub.isEmpty
  | c :: t, sub => startsWithChars sub (c :: t) || containsChars t sub

/-- JS `hay.includes(sub)` (case-sensitive). -/
def strIncludes (hay sub : String) : Bool :=
  containsChars hay.toList sub.toList

/-- JS `String.prototype.startsWith`. -/
def strStartsWith (hay sub : String) : Bool :=
  startsWithChars sub.toList hay.toList

/-- JS `toLowerCase` (character-wise). -/
def toLowerStr (s : String) : String :=
  String.mk (s.toList.map Char.toLower)

/-- JS `toUpperCase` (character-wise). -/
def toUpperStr (s : String) : String :=
  String.mk (s.toList.map Char.toUpper)

/-- Strip leading and trailing whitespace from a character list. -/
def trimChars (cs : List Char) : List Char :=
  ((cs.dropWhile Char.isWhitespace).reverse.dropWhile
    Char.isWhitespace).reverse

/-- JS `String.prototype.trim`. -/
def trimStr (s : String) : String :=
  String.mk (trimChars s.toList)

/-- The maximal whitespace-free runs of a character list, in order
(fuel-driven; fuel `length + 1` always suffices since every step
consumes at least one character). -/
def wsTokensGo : Nat → List Char → List (List Char)
  | 0, _ => []
  | fuel + 1, cs =>
    match cs.dropWhile Char.isWhitespace with
    | [] => []
    | c :: t =>
      (c :: t).takeWhile (fun a => !a.isWhitespace) ::
        wsTokensGo fuel ((c :: t).dropWhile (fun a => !a.isWhitespace))

/-- The whitespace-separated tokens of a string: for a nonempty
trimmed string this is JS `s.split(/\s+/)`. -/
def wsTokens (s : String) : List String :=
  (wsTokensGo (s.toList.length + 1) s.toList).map String.mk

/-- Longest prefix of decimal digits, as a number; `none` when the
prefix is empty (the `NaN` case of JS `parseInt`). -/
def digitsPrefixVal (cs : List Char) : Option Nat :=
  let ds := cs.takeWhile Char.isDigit
  if ds = [] then none
  else some (ds.foldl (fun a c => a * 10 + (c.toNat - 48)) 0)

/-- JS `parseInt(s, 10)` on a character list: skip leading whitespace,
accept one optional ASCII sign, then read the longest digit prefix;
`none` models `NaN`. -/
def jsParseIntChars (cs : List Char) : Option Int :=
  let cs := cs.dropWhile Char.isWhitespace
  match cs with
  | '-' :: rest => (digitsPrefixVal rest).map (fun n => -(n : Int))
  | '+' :: rest => (digitsPrefixVal rest).map (fun n => (n : Int))
  | rest => (digitsPrefixVal rest).map (fun n => (n : Int))

/-- JS `parseInt(s, 10)`. -/
def jsParseInt (s : String) : Option Int :=
  jsParseIntChars s.toList

/-! ## Odds string parsing (`src/transformer.ts`) -/

/-- The character substitution applied by the Content-API parser:
`−` (mathematical minus) becomes ASCII `-`, `+` becomes `+`
(the latter is the identity, exactly as in the source regex pair). -/
def normalizeSignChar (c : Char) : Char :=
  if c = '−' then '-' else if c = '+' then '+' else c

/-- `oddsStr.replace(/−/g, "-").replace(/+/g, "+")`. -/
def normalizeSignChars (cs : List Char) : List Char :=
  cs.map normalizeSignChar

/-- `s.toUpperCase() === "EVEN"` on character lists. -/
def isEvenToken (cs : List Char) : Bool :=
  cs.map Char.toUpper = ['E', 'V', 'E', 'N']

namespace Content

/-- `parseAmericanOdds` from the Content-API transformer
(`src/transformer.ts` lines 41-48): falsy input gives `null`;
`"EVEN"` (case-insensitively) gives `100`; otherwise the Unicode sign
glyphs are normalized and the string is parsed with `parseInt`. -/
def parseAmericanOdds (oddsStr : Option String) : Option Int :=
  match oddsStr with
  | none => none
  | some s =>
    let cs := s.toList
    if cs = [] then none
    else if isEvenToken cs then some 100
    else jsParseIntChars (normalizeSignChars cs)

end Content

namespace Grouped

/-- `parseAmericanOdds` from the eventGroup transformer
(`src/transformer.ts` lines 264-270): identical to the Content-API
variant except that no Unicode sign normalization is performed. -/
def parseAmericanOdds (oddsStr : Option String) : Option Int :=
  match oddsStr with
  | none => none
  | some s =>
    let cs := s.toList
    if cs = [] then none
    else if isEvenToken cs then some 100
    else jsParseIntChars cs

end Grouped

/-- JS `Math.round`: round half toward positive infinity. -/
def jsRound (q : ℚ) : ℤ :=
  ⌊q + 1 / 2⌋

/-- `americanFromDecimal` (`src/transformer.ts` lines 254-259). -/
def americanFromDecimal (decimal : ℚ) : ℤ :=
  if decimal ≥ 2 then jsRound ((decimal - 1) * 100)
  else jsRound (-100 / (decimal - 1))

/-- The odds-resolution pattern used throughout `extractOddsForEvent`
(`src/transformer.ts` lines 334-361):
`parseAmericanOdds(o.oddsAmerican) ?? (o.oddsDecimal ?
americanFromDecimal(o.oddsDecimal) : null)`. -/
def resolveMoneyline (oddsAmerican : Option String) (oddsDecimal : ℚ) :
    Option Int :=
  match Grouped.parseAmericanOdds oddsAmerican with
  | some n => some n
  | none => if oddsDecimal = 0 then none else some (americanFromDecimal oddsDecimal)

/-! ## Name handling (`abbreviateName`, the `"A vs B"` splitter) -/

/-- Try to match the separator regex `\s+v[s.]?\s+` (case-insensitive)
at the head of a character list; on success return the remainder after
the matched span. -/
def matchVsSep (cs : List Char) : Option (List Char) :=
  let ws1 := cs.takeWhile Char.isWhitespace
  let r1 := cs.dropWhile Char.isWhitespace
  if ws1 = [] then none
  else
    match r1 with
    | [] => none
    | c :: r2 =>
      if c.toLower = 'v' then
        match r2 with
        | [] => none
        | d :: r3 =>
          if d.toLower = 's' ∨ d = '.' then
            if r3.takeWhile Char.isWhitespace = [] then none
            else some (r3.dropWhile Char.isWhitespace)
          else
            if r2.takeWhile Char.isWhitespace = [] then none
            else some (r2.dropWhile Char.isWhitespace)
      else none

/-- Fuel-driven scanner implementing JS `split` against the separator
regex: pieces between leftmost non-overlapping matches.  Each step
consumes a character or a whole nonempty match, so fuel
`length + 1` always suffices. -/
def splitVsGo : Nat → List Char → List Char → List (List Char)
  | 0, rem, acc => [acc.reverse ++ rem]
  | fuel + 1, rem, acc =>
    match rem with
    | [] => [acc.reverse]
    | c :: t =>
      match matchVsSep (c :: t) with
      | some rest => acc.reverse :: splitVsGo fuel rest []
      | none => splitVsGo fuel t (c :: acc)

/-- JS `name.split(/\s+v[s.]?\s+/i)`. -/
def jsSplitVs (s : String) : List String :=
  (splitVsGo (s.toList.length + 1) s.toList []).map String.mk

/-- `event.name?.split(/\s+v[s.]?\s+/i)?.[i]?.trim()`. -/
def splitNameIdx (name : Option String) (i : Nat) : Option String :=
  (name.bind (fun s => (jsSplitVs s).get? i)).map trimStr

/-- `abbreviateName` (`src/transformer.ts` lines 30-34):
`"Jannik Sinner"` becomes `"J. Sinner"`; single-token names become the
uppercased first three characters of the original string. -/
def abbreviateName (fullName : String) : String :=
  let t := trimStr fullName
  let parts := if t = "" then [""] else wsTokens t
  if parts.length ≤ 1 then toUpperStr (fullName.take 3)
  else (parts.headD "").take 1 ++ ". " ++ parts.getLastD ""

/-! ## Data model: Content-API (flat) payload shape -/

structure DKContentParticipant where
  venueRole : String
  name : String
deriving DecidableEq

structure DKDisplayOdds where
  american : Option String
deriving DecidableEq

structure DKContentSelection where
  marketId : String
  outcomeType : Option String
  label : Option String
  displayOdds : Option DKDisplayOdds
  line : Option ℚ
deriving DecidableEq

structure DKMarketType where
  name : Option String
deriving DecidableEq

structure DKContentMarket where
  id : String
  eventId : String
  name : Option String
  marketType : Option DKMarketType
deriving DecidableEq

structure DKContentEvent where
  id : String
  status : String
  startEventDate : String
  name : Option String
  participants : Option (List DKContentParticipant)
deriving DecidableEq

structure DKContentResponse where
  events : List DKContentEvent
  markets : List DKContentMarket
  selections : List DKContentSelection
deriving DecidableEq

/-- The output row shape (`SportEventInsert` in `src/transformer.ts`). -/
structure SportEventInsert where
  external_id : String
  sport : String
  league : String
  home_team_name : String
  home_team_abbr : String
  away_team_name : String
  away_team_abbr : String
  start_time : String
  status : String
  is_outdoor : Bool
  moneyline_home : Option Int
  moneyline_away : Option Int
  spread_home : Option ℚ
  spread_away : Option ℚ
  total_over : Option ℚ
  total_under : Option ℚ
deriving DecidableEq

/-- The six mutable odds variables threaded through extraction. -/
structure EventOdds where
  moneyline_home : Option Int
  moneyline_away : Option Int
  spread_home : Option ℚ
  spread_away : Option ℚ
  total_over : Option ℚ
  total_under : Option ℚ
deriving DecidableEq

def emptyOdds : EventOdds := ⟨none, none, none, none, none, none⟩

/-! ## The JS `Map`-of-arrays lookup structures -/

/-- Association-list lookup: the value bound to the first occurrence of
key `k` (JS `Map.get`). -/
def alistGet {α : Type} (m : List (String × List α)) (k : String) :
    Option (List α) :=
  (m.find? (fun p => p.1 == k)).map (fun p => p.2)

/-- JS `Map.set`: replace the binding at an existing key in place, or
append a fresh binding at the end (insertion order preserved). -/
def alistSet {α : Type} : List (String × List α) → String → List α →
    List (String × List α)
  | [], k, v => [(k, v)]
  | (k', v') :: t, k, v =>
    if k' == k then (k', v) :: t else (k', v') :: alistSet t k v

/-- `map.get(k) || []`. -/
def mapGetList {α : Type} (m : List (String × List α)) (k : String) :
    List α :=
  (alistGet m k).getD []

/-- The lookup-map construction loop of `transformDKResponse`
(`src/transformer.ts` lines 67-80): for each entry, fetch the existing
array for its key (default empty), push the entry, and store it back. -/
def buildIndex {α : Type} (key : α → String) (xs : List α) :
    List (String × List α) :=
  xs.foldl (fun m x => alistSet m (key x) (mapGetList m (key x) ++ [x])) []

/-! ## Market-name classification and the common helpers -/

def mlKeyword (n : String) : Bool :=
  strIncludes n "moneyline" || strIncludes n "match winner" ||
  strIncludes n "winner" || strIncludes n "match lines"

def spKeyword (n : String) : Bool :=
  strIncludes n "spread" || strIncludes n "handicap" ||
  strIncludes n "game spread"

def totKeyword (n : String) : Bool :=
  strIncludes n "total" || strIncludes n "over/under" ||
  strIncludes n "total games"

/-- `new Date(s) < now`, where `none` models an Invalid Date (every JS
comparison against `NaN` is false). -/
def pastCheckB (parseDate : String → Option Int) (s : String)
    (now : Int) : Bool :=
  match parseDate s with
  | some d => decide (d < now)
  | none => false

/-! ## Content-API (flat) transformer (`src/transformer.ts` lines 60-209) -/

namespace Content

/-- `selection?.displayOdds?.american`. -/
def selAmerican (s : Option DKContentSelection) : Option String :=
  s.bind (fun s => s.displayOdds.bind (fun d => d.american))

/-- One iteration of the `for (const market of eventMarkets)` loop
(`src/transformer.ts` lines 120-183), updating the six odds
variables. -/
def marketStep (sIdx : List (String × List DKContentSelection))
    (acc : EventOdds) (market : DKContentMarket) : EventOdds :=
  let marketName :=
    toLowerStr (jsOr2 market.name (market.marketType.bind (fun t => t.name)) "")
  let sels := mapGetList sIdx market.id
  let acc :=
    if mlKeyword marketName then
      let homeSel := sels.find? (fun s => s.outcomeType == some "Home")
      let awaySel := sels.find? (fun s => s.outcomeType == some "Away")
      let mh := jsNullish (parseAmericanOdds (selAmerican homeSel))
                  acc.moneyline_home
      let ma := jsNullish (parseAmericanOdds (selAmerican awaySel))
                  acc.moneyline_away
      if mh = none ∧ ma = none ∧ sels.length ≥ 2 then
        { acc with
          moneyline_home := parseAmericanOdds (selAmerican (sels.get? 0)),
          moneyline_away := parseAmericanOdds (selAmerican (sels.get? 1)) }
      else
        { acc with moneyline_home := mh, moneyline_away := ma }
    else acc
  let acc :=
    if spKeyword marketName then
      let homeSel := sels.find? (fun s => s.outcomeType == some "Home")
      let awaySel := sels.find? (fun s => s.outcomeType == some "Away")
      let homeLine := homeSel.bind (fun s => s.line)
      let awayLine := awaySel.bind (fun s => s.line)
      { acc with
        spread_home := jsNullish homeLine
          (if sels.length ≥ 2 then (sels.get? 0).bind (fun s => s.line)
           else none),
        spread_away := jsNullish awayLine
          (if sels.length ≥ 2 then (sels.get? 1).bind (fun s => s.line)
           else none) }
    else acc
  let acc :=
    if totKeyword marketName then
      let overSel := sels.find? (fun s =>
        s.label.map toLowerStr == some "over" ||
        s.outcomeType == some "Over")
      let underSel := sels.find? (fun s =>
        s.label.map toLowerStr == some "under" ||
        s.outcomeType == some "Under")
      { acc with
        total_over := jsNullish (overSel.bind (fun s => s.line))
          (if sels.length ≥ 2 then (sels.get? 0).bind (fun s => s.line)
           else none),
        total_under := jsNullish (underSel.bind (fun s => s.line))
          (if sels.length ≥ 2 then (sels.get? 1).bind (fun s => s.line)
           else none) }
    else acc
  acc

/-- Participant-name resolution
(`src/transformer.ts` lines 91-106): the structured participant with
the given venue role, falling back to the `i`-th piece of the split
display name, falling back to `"TBD"`. -/
def playerName (role : String) (idx : Nat) (event : DKContentEvent) :
    String :=
  let participant :=
    (event.participants.getD []).find? (fun p => p.venueRole == role)
  jsOr2 (participant.map (fun p => p.name)) (splitNameIdx event.name idx)
    "TBD"

/-- The row pushed for one admitted event
(`src/transformer.ts` lines 185-202). -/
def rowOf (tournamentName : String)
    (mIdx : List (String × List DKContentMarket))
    (sIdx : List (String × List DKContentSelection))
    (event : DKContentEvent) : SportEventInsert :=
  let player1 := playerName "Home" 0 event
  let player2 := playerName "Away" 1 event
  let odds := (mapGetList mIdx event.id).foldl (marketStep sIdx) emptyOdds
  { external_id := "dk_tennis_" ++ event.id
    sport := "Tennis"
    league := tournamentName
    home_team_name := player1
    home_team_abbr := abbreviateName player1
    away_team_name := player2
    away_team_abbr := abbreviateName player2
    start_time := event.startEventDate
    status := "scheduled"
    is_outdoor := true
    moneyline_home := odds.moneyline_home
    moneyline_away := odds.moneyline_away
    spread_home := odds.spread_home
    spread_away := odds.spread_away
    total_over := odds.total_over
    total_under := odds.total_under }

/-- The body of the `for (const event of events)` loop
(`src/transformer.ts` lines 82-203): `none` when the event is skipped
by a `continue`, otherwise the pushed row. -/
def processEvent (parseDate : String → Option Int)
    (tournamentName : String) (now : Int)
    (mIdx : List (String × List DKContentMarket))
    (sIdx : List (String × List DKContentSelection))
    (event : DKContentEvent) : Option SportEventInsert :=
  if event.status ≠ "NOT_STARTED" then none
  else if pastCheckB parseDate event.startEventDate now then none
  else if playerName "Home" 0 event = "TBD" ∨
          playerName "Away" 1 event = "TBD" then none
  else some (rowOf tournamentName mIdx sIdx event)

/-- `transformDKResponse` for the Content-API (flat) payload shape
(`src/transformer.ts` lines 60-209). -/
def transformDKResponse (parseDate : String → Option Int)
    (response : DKContentResponse) (tournamentName : String)
    (now : Int) : List SportEventInsert :=
  let mIdx := buildIndex (fun m : DKContentMarket => m.eventId)
    response.markets
  let sIdx := buildIndex (fun s : DKContentSelection => s.marketId)
    response.selections
  response.events.filterMap (processEvent parseDate tournamentName now mIdx sIdx)

end Content

/-! ## Data model: eventGroup (grouped) payload shape
(`src/draftkings.ts` lines 79-128) -/

structure DKOutcome where
  label : String
  oddsDecimal : ℚ
  oddsAmerican : String
  line : Option ℚ
  participant : Option String
deriving DecidableEq

structure DKOffer where
  providerEventId : Option String
  eventId : Option Int
  label : String
  outcomes : List DKOutcome
  isSuspended : Option Bool
deriving DecidableEq

structure DKOfferSubcategory where
  offers : Option (List (List DKOffer))
deriving DecidableEq

structure DKSubcategoryDescriptor where
  subcategoryId : Nat
  name : String
  offerSubcategory : Option DKOfferSubcategory
deriving DecidableEq

structure DKOfferCategory where
  offerCategoryId : Nat
  name : String
  offerSubcategoryDescriptors : Option (List DKSubcategoryDescriptor)
deriving DecidableEq

structure DKEventStatus where
  state : String
deriving DecidableEq

structure DKEvent where
  eventId : Int
  name : Option String
  startDate : String
  teamName1 : String
  teamName2 : String
  eventStatus : Option DKEventStatus
deriving DecidableEq

structure DKEventGroup where
  eventGroupId : Nat
  name : String
  events : Option (List DKEvent)
  offerCategories : Option (List DKOfferCategory)
deriving DecidableEq

structure DKEventGroupResponse where
  eventGroup : DKEventGroup
deriving DecidableEq

/-! ## Grouped (eventGroup) transformer (`src/transformer.ts` lines 240-470) -/

namespace Grouped

/-- `offer.eventId ?? (offer.providerEventId ?
parseInt(offer.providerEventId, 10) : null)`, with `none` also covering
the `NaN` case. -/
def offerEventId (offer : DKOffer) : Option Int :=
  match offer.eventId with
  | some v => some v
  | none =>
    match offer.providerEventId with
    | some s => if s = "" then none else jsParseInt s
    | none => none

/-- `o.participant === teamName || o.label === teamName`. -/
def outcomeMatches (teamName : String) (o : DKOutcome) : Bool :=
  o.participant == some teamName || o.label == teamName

/-- One iteration of the innermost `for (const offer of offerGroup)`
loop of `extractOddsForEvent` (`src/transformer.ts` lines 298-406). -/
def offerStep (event : DKEvent) (descName : String) (acc : EventOdds)
    (offer : DKOffer) : EventOdds :=
  if offerEventId offer ≠ some event.eventId then acc
  else if offer.isSuspended == some true then acc
  else
    let label := toLowerStr (jsOrStr offer.label (jsOrStr descName ""))
    let outcomes := offer.outcomes
    let acc :=
      if mlKeyword label then
        if outcomes.length ≥ 2 then
          let p1 := outcomes.find? (outcomeMatches event.teamName1)
          let p2 := outcomes.find? (outcomeMatches event.teamName2)
          let acc :=
            match p1 with
            | some o =>
              { acc with
                moneyline_home := resolveMoneyline (some o.oddsAmerican) o.oddsDecimal }
            | none => acc
          let acc :=
            match p2 with
            | some o =>
              { acc with
                moneyline_away := resolveMoneyline (some o.oddsAmerican) o.oddsDecimal }
            | none => acc
          if acc.moneyline_home.isNone && acc.moneyline_away.isNone then
            { acc with
              moneyline_home := (outcomes.get? 0).bind
                (fun o => resolveMoneyline (some o.oddsAmerican) o.oddsDecimal),
              moneyline_away := (outcomes.get? 1).bind
                (fun o => resolveMoneyline (some o.oddsAmerican) o.oddsDecimal) }
          else acc
        else acc
      else acc
    let acc :=
      if spKeyword label then
        if outcomes.length ≥ 2 then
          let p1 := outcomes.find? (outcomeMatches event.teamName1)
          let p2 := outcomes.find? (outcomeMatches event.teamName2)
          { acc with
            spread_home := jsNullish (p1.bind (fun o => o.line))
              ((outcomes.get? 0).bind (fun o => o.line)),
            spread_away := jsNullish (p2.bind (fun o => o.line))
              ((outcomes.get? 1).bind (fun o => o.line)) }
        else acc
      else acc
    let acc :=
      if totKeyword label then
        if outcomes.length ≥ 2 then
          let over := outcomes.find? (fun o => toLowerStr o.label == "over")
          let under := outcomes.find? (fun o => toLowerStr o.label == "under")
          { acc with
            total_over := jsNullish (over.bind (fun o => o.line))
              ((outcomes.get? 0).bind (fun o => o.line)),
            total_under := jsNullish (under.bind (fun o => o.line))
              ((outcomes.get? 1).bind (fun o => o.line)) }
        else acc
      else acc
    acc

/-- `extractOddsForEvent` (`src/transformer.ts` lines 276-412): fold
the four nested loops over categories, descriptors, the offers grid
and its rows. -/
def extractOddsForEvent (response : DKEventGroupResponse)
    (event : DKEvent) : EventOdds :=
  (response.eventGroup.offerCategories.getD []).foldl
    (fun acc category =>
      (category.offerSubcategoryDescriptors.getD []).foldl
        (fun acc descriptor =>
          ((descriptor.offerSubcategory.bind (fun s => s.offers)).getD []).foldl
            (fun acc offerGroup =>
              offerGroup.foldl (offerStep event descriptor.name) acc)
            acc)
        acc)
    emptyOdds

/-- `event.eventStatus?.state || ""`. -/
def eventState (event : DKEvent) : String :=
  (event.eventStatus.map (fun s => s.state)).getD ""

/-- Participant-name resolution of the grouped variant
(`src/transformer.ts` lines 437-444): `teamName1`/`teamName2`, falling
back to the split display name, falling back to `"TBD"`. -/
def player (team : String) (idx : Nat) (event : DKEvent) : String :=
  jsOrStr team (jsOrOpt (splitNameIdx event.name idx) "TBD")

/-- The row pushed for one admitted event
(`src/transformer.ts` lines 451-463). -/
def rowOf (response : DKEventGroupResponse) (tournamentName : String)
    (event : DKEvent) : SportEventInsert :=
  let player1 := player event.teamName1 0 event
  let player2 := player event.teamName2 1 event
  let odds := extractOddsForEvent response event
  { external_id := "dk_tennis_" ++ toString event.eventId
    sport := "Tennis"
    league := tournamentName
    home_team_name := player1
    home_team_abbr := abbreviateName player1
    away_team_name := player2
    away_team_abbr := abbreviateName player2
    start_time := event.startDate
    status := "scheduled"
    is_outdoor := true
    moneyline_home := odds.moneyline_home
    moneyline_away := odds.moneyline_away
    spread_home := odds.spread_home
    spread_away := odds.spread_away
    total_over := odds.total_over
    total_under := odds.total_under }

/-- The body of the grouped `for (const event of events)` loop
(`src/transformer.ts` lines 425-464). -/
def processEvent (parseDate : String → Option Int)
    (response : DKEventGroupResponse) (tournamentName : String)
    (now : Int) (event : DKEvent) : Option SportEventInsert :=
  if eventState event = "RESULTED" ∨ eventState event = "STARTED" ∨
     eventState event = "LIVE" then none
  else if pastCheckB parseDate event.startDate now then none
  else if player event.teamName1 0 event = "TBD" ∨
          player event.teamName2 1 event = "TBD" then none
  else some (rowOf response tournamentName event)

/-- `transformDKResponse` for the eventGroup (grouped) payload shape
(`src/transformer.ts` lines 418-470). -/
def transformDKResponse (parseDate : String → Option Int)
    (response : DKEventGroupResponse) (tournamentName : String)
    (now : Int) : List SportEventInsert :=
  (response.eventGroup.events.getD []).filterMap
    (processEvent parseDate response tournamentName now)

end Grouped

/-! ## Tournament catalog resolver
(`src/config.ts`, `src/draftkings.ts` lines 130-192) -/

/-- `TENNIS_DISPLAY_GROUP_ID` (`src/config.ts`). -/
def TENNIS_DISPLAY_GROUP_ID : String := "6"

/-- `SKIP_TOURNAMENT_KEYWORDS` (`src/config.ts` lines 25-57). -/
def SKIP_TOURNAMENT_KEYWORDS : List String :=
  ["australian open", "french open", "roland garros", "wimbledon",
   "us open",
   "indian wells", "bnp paribas", "miami", "monte carlo", "monte-carlo",
   "madrid", "italian open", "rome", "internazionali", "canadian open",
   "rogers cup", "national bank open", "cincinnati",
   "western & southern", "shanghai", "paris masters", "rolex paris",
   "dubai", "qatar", "doha", "china open", "beijing", "wuhan"]

/-- `shouldSkipTournament` (`src/config.ts` lines 59-62). -/
def shouldSkipTournament (name : String) : Bool :=
  SKIP_TOURNAMENT_KEYWORDS.any (fun kw => strIncludes (toLowerStr name) kw)

structure DKEventGroupInfo where
  eventGroupName : Option String
  displayName : Option String
  name : Option String
  eventGroupId : Option Nat
deriving DecidableEq

structure DKDisplayGroupInfo where
  displayGroupId : String
  displayName : Option String
  eventGroupInfos : Option (List DKEventGroupInfo)
deriving DecidableEq

structure NavCatalog where
  displayGroupInfos : Option (List DKDisplayGroupInfo)
deriving DecidableEq

structure DKTournament where
  eventGroupId : Nat
  name : String
deriving DecidableEq

/-- The model of one `fetch(DK_NAV_URL)` call: the `ok` flag and
status of the HTTP response, and the catalog when the body parses as
JSON (`none` models a body on which `res.json()` throws). -/
structure NavFetchResult where
  ok : Bool
  status : Nat
  body : Option NavCatalog
deriving DecidableEq

/-- The sport-group match of `fetchTennisTournaments`
(`src/draftkings.ts` lines 145-149):
`String(g.displayGroupId) === String(TENNIS_DISPLAY_GROUP_ID) ||
g.displayName?.toLowerCase() === "tennis"`. -/
def isTennisGroup (g : DKDisplayGroupInfo) : Bool :=
  g.displayGroupId == TENNIS_DISPLAY_GROUP_ID ||
  g.displayName.map toLowerStr == some "tennis"

/-- The per-event-group body of the `for (const eg of eventGroups)`
loop (`src/draftkings.ts` lines 165-182): `none` when the group is
skipped by a `continue`. -/
def tournamentOfGroup (eg : DKEventGroupInfo) : Option DKTournament :=
  let name := jsOrOpt eg.eventGroupName
    (jsOrOpt eg.displayName (jsOrOpt eg.name ""))
  let egid := eg.eventGroupId.getD 0
  if egid = 0 ∨ name = "" then none
  else if shouldSkipTournament name then none
  else if strIncludes (toLowerStr name) "doubles" then none
  else some ⟨egid, name⟩

/-- `fetchTennisTournaments` (`src/draftkings.ts` lines 134-192),
as a function of the discovery fetch outcome.  `Except.error` models a
thrown `Error`. -/
def fetchTennisTournaments (r : NavFetchResult) :
    Except String (List DKTournament) :=
  if ¬ r.ok then
    Except.error ("Nav API returned " ++ toString r.status)
  else
    match r.body with
    | none => Except.error "res.json() threw: malformed body"
    | some data =>
      let groups := data.displayGroupInfos.getD []
      match groups.find? isTennisGroup with
      | none => Except.ok []
      | some tennisSport =>
        Except.ok ((tennisSport.eventGroupInfos.getD []).filterMap
          tournamentOfGroup)

/-- `Except.error`-ness, as a Boolean. -/
def exceptIsError {ε α : Type} (x : Except ε α) : Bool :=
  match x with
  | Except.error _ => true
  | Except.ok _ => false

/-! ## Response-observer admission (`src/draftkings.ts` lines 213-290)

The observer installed by `fetchAllTournamentOdds` is modelled as a
function from one observed response to what the handler does with it:
whether it appends a line to `apiLog`, whether it invokes
`resp.json()`, which eventGroup (if any) it stores into `results`, and
whether it lets an exception escape. -/

/-- The extension alternatives of the static-asset regex
`/\.(js|css|png|svg|jpg|jpeg|gif|webp|woff2?|ttf|eot|ico)(\?|$)/i`. -/
def staticAssetExts : List String :=
  ["js", "css", "png", "svg", "jpg", "jpeg", "gif", "webp",
   "woff", "woff2", "ttf", "eot", "ico"]

/-- Does a dot-extension-then-query-or-end match start at the head of
this (already lowercased) character list? -/
def assetMatchAt (cs : List Char) : Bool :=
  staticAssetExts.any (fun ext =>
    let pat := '.' :: ext.toList
    startsWithChars pat cs &&
      (cs.length = pat.length || cs.get? pat.length == some '?'))

/-- Scan every start position for a match of the static-asset regex. -/
def assetScan : List Char → Bool
  | [] => false
  | c :: t => assetMatchAt (c :: t) || assetScan t

/-- The static-asset URL test of the observer. -/
def isStaticAssetUrl (url : String) : Bool :=
  assetScan (toLowerStr url).toList

/-- What the observer sees of one network response: its URL, HTTP
status, `content-type` header (absent modelled as `none`, read as `""`),
and the JSON parse of the body — `none` when `resp.json()` throws
(malformed or empty body), `some` with the embedded
`eventGroup.eventGroupId` (itself `none` when the document has no such
truthy field). -/
structure RespEnv where
  url : String
  status : Nat
  contentType : Option String
  jsonBody : Option (Option Nat)
deriving DecidableEq

/-- What one invocation of the handler did. -/
structure HandlerResult where
  logged : Bool
  parsed : Bool
  captured : Option Nat
  raised : Bool
deriving DecidableEq

/-- The response handler of `fetchAllTournamentOdds`
(`src/draftkings.ts` lines 213-290), applied to one response.
`targets` is `targetIds`. -/
def respHandler (targets : List Nat) (r : RespEnv) : HandlerResult :=
  if isStaticAssetUrl r.url then ⟨false, false, none, false⟩
  else if strStartsWith r.url "data:" then ⟨false, false, none, false⟩
  else if r.status ≠ 200 then ⟨true, false, none, false⟩
  else if ¬ strIncludes (r.contentType.getD "") "json" then
    ⟨true, false, none, false⟩
  else
    match r.jsonBody with
    | none => ⟨true, true, none, false⟩
    | some egId =>
      match egId with
      | some n =>
        if n ≠ 0 ∧ n ∈ targets then ⟨true, true, some n, false⟩
        else ⟨true, true, none, false⟩
      | none => ⟨true, true, none, false⟩

/-! ## Observer registration across exit paths
(`src/draftkings.ts` lines 292-446, `src/unnamed/part_001`
lines 187-264)

The registration state of the `"response"` handler is threaded through
the control flow of the two capture functions.  An environment records
which awaited operation (if any) throws and which branches run; the
model returns whether the call threw and whether the handler is still
registered on the page when control leaves the function. -/

/-- Environment of one `fetchAllTournamentOdds` call: which awaited
step throws, whether a tennis link is found, and whether every target
was already captured after the tennis navigation. -/
structure AllOddsEnv where
  scanLinksThrows : Bool
  tennisLinkFound : Bool
  tennisNavThrows : Bool
  clickEvalThrows : Bool
  allCaptured : Bool
  secondScanThrows : Bool
  tournamentNavThrows : List Bool
deriving DecidableEq

/-- Registration/exit model of `fetchAllTournamentOdds`: the pair
(did the call throw, is the handler still registered on exit).
`page.on` runs first; `page.off` runs only after every awaited step of
the body has completed without throwing — there is no `try`/`finally`
around the body. -/
def fetchAllOddsObserver (e : AllOddsEnv) : Bool × Bool :=
  if e.scanLinksThrows then (true, true)
  else if e.tennisLinkFound ∧ e.tennisNavThrows then (true, true)
  else if ¬ e.tennisLinkFound ∧ e.clickEvalThrows then (true, true)
  else if ¬ e.allCaptured ∧ e.secondScanThrows then (true, true)
  else if ¬ e.allCaptured ∧ e.tournamentNavThrows.any id then (true, true)
  else (false, false)

/-- Registration/exit model of the per-tournament `fetchTournamentOdds`
(`src/unnamed/part_001` lines 187-264): the handler is registered when
the promise is constructed (before navigation) and removed only inside
the handler itself, when a matching status-200 `eventGroup` JSON
response arrives before the 30s timeout.  The pair is
(the non-null result, is the handler still registered on exit):
the `catch` path and the timeout path return `null` without
`page.off`. -/
def fetchTournamentOddsObserver (gotoThrows matched : Bool) :
    Option Bool × Bool :=
  if gotoThrows then (none, !matched)
  else if matched then (some true, false)
  else (none, true)

/-! ## Helper lemmas -/

lemma alistGet_set_self {α : Type} (m : List (String × List α))
    (k : String) (v : List α) : alistGet (alistSet m k v) k = some v := by
  induction m with
  | nil => simp [alistSet, alistGet, List.find?]
  | cons p t ih =>
    obtain ⟨k', v'⟩ := p
    by_cases h : k' = k
    · subst h
      simp [alistSet, alistGet, List.find?]
    · simp only [alistSet, beq_eq_false_iff_ne.mpr h, if_neg]
      simpa [alistGet, List.find?, beq_eq_false_iff_ne.mpr h] using ih

lemma alistGet_set_other {α : Type} (m : List (String × List α))
    (k k' : String) (v : List α) (h : k' ≠ k) :
    alistGet (alistSet m k' v) k = alistGet m k := by
  induction m with
  | nil => simp [alistSet, alistGet, List.find?, beq_eq_false_iff_ne.mpr h]
  | cons p t ih =>
    obtain ⟨a, b⟩ := p
    by_cases ha : a = k'
    · subst ha
      simp [alistSet, alistGet, List.find?, beq_eq_false_iff_ne.mpr h]
    · simp only [alistSet, beq_eq_false_iff_ne.mpr ha, if_neg]
      by_cases hak : a = k
      · subst hak
        simp [alistGet, List.find?]
      · simp only [alistGet, List.find?, beq_eq_false_iff_ne.mpr hak]
        simpa [alistGet] using ih

lemma mapGetList_foldl {α : Type} (key : α → String) (xs : List α)
    (m : List (String × List α)) (k : String) :
    mapGetList
      (xs.foldl
        (fun m x => alistSet m (key x) (mapGetList m (key x) ++ [x])) m)
      k
    = mapGetList m k ++ xs.filter (fun x => key x == k) := by
  induction xs generalizing m with
  | nil => simp
  | cons x xs ih =>
    rw [List.foldl_cons, ih]
    by_cases h : key x = k
    · subst h
      rw [List.filter_cons_of_pos (by simp)]
      unfold mapGetList
      rw [alistGet_set_self]
      simp
    · rw [List.filter_cons_of_neg (by simpa using h)]
      unfold mapGetList
      rw [alistGet_set_other _ _ _ _ h]

/-- The joined view: looking a key up in a lookup structure built by
the `transformDKResponse` map-construction loop returns all entries for
that key, in input order, with no deduplication. -/
lemma mapGetList_buildIndex {α : Type} (key : α → String)
    (xs : List α) (k : String) :
    mapGetList (buildIndex key xs) k
      = xs.filter (fun x => key x == k) := by
  unfold buildIndex
  rw [mapGetList_foldl]
  simp [mapGetList, alistGet, List.find?]

lemma filterMap_ext_mem {α β : Type} (l : List α) (f g : α → Option β)
    (h : ∀ x ∈ l, f x = g x) : l.filterMap f = l.filterMap g := by
  induction l with
  | nil => rfl
  | cons x xs ih =>
    rw [List.filterMap_cons, List.filterMap_cons,
      h x (List.mem_cons_self x xs), ih (fun y hy => h y (List.mem_cons_of_mem x hy))]

lemma filterMap_filter_of_none {α β : Type} (l : List α) (p : α → Bool)
    (f : α → Option β) (h : ∀ x, p x = false → f x = none) :
    l.filterMap f = (l.filter p).filterMap f := by
  induction l with
  | nil => rfl
  | cons x xs ih =>
    by_cases hp : p x
    · rw [List.filter_cons_of_pos hp, List.filterMap_cons,
        List.filterMap_cons, ih]
    · rw [List.filter_cons_of_neg (by simpa using hp),
        List.filterMap_cons, h x (by simpa using hp), ih]

lemma normalizeSignChar_eq_self {c : Char} (h : c ≠ '−') :
    normalizeSignChar c = c := by
  unfold normalizeSignChar
  rw [if_neg h]
  by_cases h2 : c = '+'
  · subst h2; rfl
  · rw [if_neg h2]

lemma normalizeSignChar_idem (c : Char) :
    normalizeSignChar (normalizeSignChar c) = normalizeSignChar c := by
  by_cases h : c = '−'
  · subst h
    decide
  · simp only [normalizeSignChar_eq_self h]

lemma normalizeSignChars_idem (cs : List Char) :
    normalizeSignChars (normalizeSignChars cs) = normalizeSignChars cs := by
  induction cs with
  | nil => rfl
  | cons c t ih =>
    simp only [normalizeSignChars, List.map_cons] at *
    rw [normalizeSignChar_idem]
    simpa [normalizeSignChars] using ih

lemma mapUpper_normalize_eq (cs t : List Char)
    (h : ∀ a ∈ t, a ≠ '-' ∧ a ≠ '−') :
    (List.map Char.toUpper (normalizeSignChars cs) = t) ↔
      (List.map Char.toUpper cs = t) := by
  induction cs generalizing t with
  | nil => simp [normalizeSignChars]
  | cons c cs ih =>
    cases t with
    | nil => simp [normalizeSignChars]
    | cons a t =>
      have hhead : (Char.toUpper (normalizeSignChar c) = a) ↔
          (Char.toUpper c = a) := by
        by_cases hc : c = '−'
        · subst hc
          have h1 : Char.toUpper (normalizeSignChar '−') = '-' := by decide
          have h2 : Char.toUpper '−' = '−' := by decide
          rw [h1, h2]
          constructor
          · intro hh; exact absurd hh.symm (h a (by simp)).1
          · intro hh; exact absurd hh.symm (h a (by simp)).2
        · rw [normalizeSignChar_eq_self hc]
      have htail := ih t (fun a ha => h a (List.mem_cons_of_mem _ ha))
      simp only [normalizeSignChars, List.map_cons, List.cons.injEq] at *
      exact and_congr hhead htail

lemma isEvenToken_normalize (cs : List Char) :
    isEvenToken (normalizeSignChars cs) = isEvenToken cs := by
  unfold isEvenToken
  rw [decide_eq_decide]
  exact mapUpper_normalize_eq cs ['E', 'V', 'E', 'N'] (by decide)

namespace Content

/-- The conjunction of the three admission checks of the flat event
loop: status is exactly `"NOT_STARTED"`, the parsed start date is not
before `now`, and both resolved names differ from `"TBD"`. -/
def keepEvent (parseDate : String → Option Int) (now : Int)
    (event : DKContentEvent) : Bool :=
  (event.status == "NOT_STARTED") &&
  !(pastCheckB parseDate event.startEventDate now) &&
  !(playerName "Home" 0 event == "TBD" ||
    playerName "Away" 1 event == "TBD")

lemma flatEvent_none {parseDate : String → Option Int} {now : Int}
    {tournamentName : String}
    {mIdx : List (String × List DKContentMarket)}
    {sIdx : List (String × List DKContentSelection)}
    {event : DKContentEvent}
    (h : keepEvent parseDate now event = false) :
    processEvent parseDate tournamentName now mIdx sIdx event = none := by
  unfold processEvent
  by_cases h1 : event.status ≠ "NOT_STARTED"
  · rw [if_pos h1]
  · rw [if_neg h1]
    by_cases h2 : pastCheckB parseDate event.startEventDate now = true
    · rw [if_pos h2]
    · rw [if_neg h2]
      by_cases h3 : playerName "Home" 0 event = "TBD" ∨
          playerName "Away" 1 event = "TBD"
      · rw [if_pos h3]
      · exfalso
        rw [not_or] at h3
        simp [keepEvent, not_not.mp h1, h2, h3.1, h3.2] at h

lemma flatEvent_time_inv {parseDate : String → Option Int}
    {t₁ t₂ : Int} {tournamentName : String}
    {mIdx : List (String × List DKContentMarket)}
    {sIdx : List (String × List DKContentSelection)}
    {event : DKContentEvent}
    (h : pastCheckB parseDate event.startEventDate t₁ =
         pastCheckB parseDate event.startEventDate t₂) :
    processEvent parseDate tournamentName t₁ mIdx sIdx event =
    processEvent parseDate tournamentName t₂ mIdx sIdx event := by
  unfold processEvent
  rw [h]

lemma flatEvent_fields {parseDate : String → Option Int} {now : Int}
    {tournamentName : String}
    {mIdx : List (String × List DKContentMarket)}
    {sIdx : List (String × List DKContentSelection)}
    {event : DKContentEvent} {rec : SportEventInsert}
    (h : processEvent parseDate tournamentName now mIdx sIdx event =
         some rec) :
    rec.status = "scheduled" ∧ rec.is_outdoor = true := by
  unfold processEvent at h
  split at h
  · exact absurd h (by simp)
  · split at h
    · exact absurd h (by simp)
    · split at h
      · exact absurd h (by simp)
      · rw [Option.some.injEq] at h
        subst h
        exact ⟨rfl, rfl⟩

end Content

namespace Grouped

/-- The conjunction of the three admission checks of the grouped event
loop: the state is not in the `RESULTED`/`STARTED`/`LIVE` blocklist,
the parsed start date is not before `now`, and both resolved names
differ from `"TBD"`. -/
def keepEvent (parseDate : String → Option Int) (now : Int)
    (event : DKEvent) : Bool :=
  !(eventState event == "RESULTED" || eventState event == "STARTED" ||
    eventState event == "LIVE") &&
  !(pastCheckB parseDate event.startDate now) &&
  !(player event.teamName1 0 event == "TBD" ||
    player event.teamName2 1 event == "TBD")

lemma groupedEvent_none {parseDate : String → Option Int} {now : Int}
    {response : DKEventGroupResponse} {tournamentName : String}
    {event : DKEvent}
    (h : keepEvent parseDate now event = false) :
    processEvent parseDate response tournamentName now event = none := by
  unfold processEvent
  by_cases h1 : eventState event = "RESULTED" ∨
      eventState event = "STARTED" ∨ eventState event = "LIVE"
  · rw [if_pos h1]
  · rw [if_neg h1]
    by_cases h2 : pastCheckB parseDate event.startDate now = true
    · rw [if_pos h2]
    · rw [if_neg h2]
      by_cases h3 : player event.teamName1 0 event = "TBD" ∨
          player event.teamName2 1 event = "TBD"
      · rw [if_pos h3]
      · exfalso
        rw [not_or] at h3
        rw [not_or] at h1
        have h1b := h1.2
        rw [not_or] at h1b
        simp [keepEvent, h1.1, h1b.1, h1b.2, h2, h3.1, h3.2] at h

lemma groupedEvent_time_inv {parseDate : String → Option Int}
    {t₁ t₂ : Int} {response : DKEventGroupResponse}
    {tournamentName : String} {event : DKEvent}
    (h : pastCheckB parseDate event.startDate t₁ =
         pastCheckB parseDate event.startDate t₂) :
    processEvent parseDate response tournamentName t₁ event =
    processEvent parseDate response tournamentName t₂ event := by
  unfold processEvent
  rw [h]

lemma groupedEvent_fields {parseDate : String → Option Int} {now : Int}
    {response : DKEventGroupResponse} {tournamentName : String}
    {event : DKEvent} {rec : SportEventInsert}
    (h : processEvent parseDate response tournamentName now event =
         some rec) :
    rec.status = "scheduled" ∧ rec.is_outdoor = true := by
  unfold processEvent at h
  split at h
  · exact absurd h (by simp)
  · split at h
    · exact absurd h (by simp)
    · split at h
      · exact absurd h (by simp)
      · rw [Option.some.injEq] at h
        subst h
        exact ⟨rfl, rfl⟩

end Grouped

/-! ## Claim theorems -/

/-- C5: `americanFromDecimal` is a pure function with
`d ≥ 2.0 ↦ round((d−1)·100)` and `d < 2.0 ↦ round(−100/(d−1))`;
in particular 2.50 ↦ +150, 1.50 ↦ −200 and 2.00 ↦ +100; and in
`extractOddsForEvent` it is consulted only when parsing the
American-format field returned null and the decimal value is truthy. -/
theorem americanFromDecimal_spec :
    (americanFromDecimal (5 / 2) = 150 ∧
     americanFromDecimal (3 / 2) = -200 ∧
     americanFromDecimal 2 = 100) ∧
    (∀ d : ℚ, 2 ≤ d → americanFromDecimal d = jsRound ((d - 1) * 100)) ∧
    (∀ d : ℚ, d < 2 → americanFromDecimal d = jsRound (-100 / (d - 1))) ∧
    (∀ (am : Option String) (dec : ℚ),
      (Grouped.parseAmericanOdds am).isSome = true →
      resolveMoneyline am dec = Grouped.parseAmericanOdds am) ∧
    (∀ am : Option String,
      resolveMoneyline am 0 = Grouped.parseAmericanOdds am) := by
  refine ⟨⟨?_, ?_, ?_⟩, ?_, ?_, ?_, ?_⟩
  · norm_num [americanFromDecimal, jsRound]
  · norm_num [americanFromDecimal, jsRound]
  · norm_num [americanFromDecimal, jsRound]
  · intro d hd
    unfold americanFromDecimal
    rw [if_pos (by exact_mod_cast hd)]
  · intro d hd
    unfold americanFromDecimal
    rw [if_neg (by exact_mod_cast not_le.mpr hd)]
  · intro am dec h
    unfold resolveMoneyline
    cases hp : Grouped.parseAmericanOdds am with
    | none => rw [hp] at h; exact absurd h (by simp)
    | some n => simp
  · intro am
    unfold resolveMoneyline
    cases hp : Grouped.parseAmericanOdds am with
    | none => simp
    | some n => simp

/-- Witness for C5: the universal parts of `americanFromDecimal_spec`
instantiated at concrete inputs. -/
theorem americanFromDecimal_spec_witness :
    (americanFromDecimal 3 = jsRound ((3 - 1) * 100)) ∧
    (americanFromDecimal (1 / 2) = jsRound (-100 / ((1 / 2) - 1))) ∧
    resolveMoneyline (some "-110") 5 =
      Grouped.parseAmericanOdds (some "-110") ∧
    resolveMoneyline (some "x") 0 = Grouped.parseAmericanOdds (some "x") :=
  ⟨americanFromDecimal_spec.2.1 3 (by norm_num),
   americanFromDecimal_spec.2.2.1 (1 / 2) (by norm_num),
   americanFromDecimal_spec.2.2.2.1 (some "-110") 5 (by decide),
   americanFromDecimal_spec.2.2.2.2 (some "x")⟩

/-- C7: `fetchTennisTournaments` throws whenever the discovery fetch is
non-success, and returns the empty list (not an error) when the catalog
parses but no sport group matches tennis. -/
theorem fetchTennisTournaments_error_and_empty :
    (∀ r : NavFetchResult, r.ok = false →
      exceptIsError (fetchTennisTournaments r) = true) ∧
    (∀ (r : NavFetchResult) (cat : NavCatalog), r.ok = true →
      r.body = some cat →
      (cat.displayGroupInfos.getD []).find? isTennisGroup = none →
      fetchTennisTournaments r = Except.ok []) := by
  constructor
  · intro r h
    simp [fetchTennisTournaments, h, exceptIsError]
  · intro r cat hok hbody hfind
    simp [fetchTennisTournaments, hok, hbody, hfind]

/-- Witness for C7: a 403 discovery response throws; a parsed catalog
with no tennis group yields the empty list. -/
theorem fetchTennisTournaments_error_and_empty_witness :
    exceptIsError (fetchTennisTournaments ⟨false, 403, none⟩) = true ∧
    fetchTennisTournaments ⟨true, 200, some ⟨some []⟩⟩ = Except.ok [] :=
  ⟨fetchTennisTournaments_error_and_empty.1 ⟨false, 403, none⟩ rfl,
   fetchTennisTournaments_error_and_empty.2 ⟨true, 200, some ⟨some []⟩⟩
     ⟨some []⟩ rfl rfl (by decide)⟩

/-- C2 counterexample: the claim that the capture functions deregister
the response observer on every exit path is false at a concrete
environment.  In `fetchAllTournamentOdds`, when the navigation to the
tennis link throws, the function exits by exception with the handler
still registered (`page.off` at line 446 of `src/draftkings.ts` is
never reached, there being no `try`/`finally`); in
`fetchTournamentOdds`, the 30-second capture-window timeout resolves
`null` without ever calling `page.off`. -/
theorem observer_deregistration_cex :
    (fetchAllOddsObserver ⟨false, true, true, false, true, false, []⟩).2 =
      true ∧
    (fetchTournamentOddsObserver false false).2 = true := by
  constructor
  · rfl
  · rfl

/-- C2 amended: `fetchAllTournamentOdds` leaves the handler registered
exactly when the call throws (every non-throwing completion
deregisters it), and `fetchTournamentOdds` deregisters it exactly when
a matching successful `eventGroup` response was intercepted before the
timeout — its timeout and navigation-error exits leave the handler
registered. -/
theorem observer_deregistration_amended :
    (∀ e : AllOddsEnv,
      (fetchAllOddsObserver e).2 = (fetchAllOddsObserver e).1) ∧
    (∀ gotoThrows matched : Bool,
      (fetchTournamentOddsObserver gotoThrows matched).2 = !matched) := by
  constructor
  · intro e
    unfold fetchAllOddsObserver
    split
    · rfl
    · split
      · rfl
      · split
        · rfl
        · split
          · rfl
          · split
            · rfl
            · rfl
  · intro g m
    cases g <;> cases m <;> rfl

/-- C10: every record emitted by either `transformDKResponse` variant
has `is_outdoor = true` and `status = "scheduled"`, for every input
payload: both fields are hardcoded constants of the pushed row. -/
theorem records_scheduled_outdoor :
    (∀ (parseDate : String → Option Int) (r : DKContentResponse)
       (l : String) (now : Int) (rec : SportEventInsert),
      rec ∈ Content.transformDKResponse parseDate r l now →
      rec.is_outdoor = true ∧ rec.status = "scheduled") ∧
    (∀ (parseDate : String → Option Int) (r : DKEventGroupResponse)
       (l : String) (now : Int) (rec : SportEventInsert),
      rec ∈ Grouped.transformDKResponse parseDate r l now →
      rec.is_outdoor = true ∧ rec.status = "scheduled") := by
  constructor
  · intro pd r l now rec hmem
    unfold Content.transformDKResponse at hmem
    rw [List.mem_filterMap] at hmem
    obtain ⟨e, _, he⟩ := hmem
    have h := Content.flatEvent_fields he
    exact ⟨h.2, h.1⟩
  · intro pd r l now rec hmem
    unfold Grouped.transformDKResponse at hmem
    rw [List.mem_filterMap] at hmem
    obtain ⟨e, _, he⟩ := hmem
    have h := Grouped.groupedEvent_fields he
    exact ⟨h.2, h.1⟩

/-- A one-event flat payload that passes every admission check. -/
def c10event : DKContentEvent :=
  ⟨"e1", "NOT_STARTED", "D", some "Alice vs Bob", none⟩

def c10resp : DKContentResponse := ⟨[c10event], [], []⟩

/-- A one-event grouped payload that passes every admission check. -/
def c10gevent : DKEvent := ⟨7, some "Alice vs Bob", "D", "", "", none⟩

def c10gresp : DKEventGroupResponse := ⟨⟨11, "G", some [c10gevent], none⟩⟩

/-- Witness for C10: both parts of `records_scheduled_outdoor`
instantiated on concrete one-event payloads that emit a record. -/
theorem records_scheduled_outdoor_witness :
    (Content.rowOf "T" [] [] c10event ∈
       Content.transformDKResponse (fun _ => none) c10resp "T" 0 ∧
     (Content.rowOf "T" [] [] c10event).is_outdoor = true ∧
     (Content.rowOf "T" [] [] c10event).status = "scheduled") ∧
    (Grouped.rowOf c10gresp "T" c10gevent ∈
       Grouped.transformDKResponse (fun _ => none) c10gresp "T" 0 ∧
     (Grouped.rowOf c10gresp "T" c10gevent).is_outdoor = true ∧
     (Grouped.rowOf c10gresp "T" c10gevent).status = "scheduled") :=
  have h₁ : Content.rowOf "T" [] [] c10event ∈
      Content.transformDKResponse (fun _ => none) c10resp "T" 0 := by
    decide
  have h₂ : Grouped.rowOf c10gresp "T" c10gevent ∈
      Grouped.transformDKResponse (fun _ => none) c10gresp "T" 0 := by
    decide
  ⟨⟨h₁, records_scheduled_outdoor.1 (fun _ => none) c10resp "T" 0 _ h₁⟩,
   ⟨h₂, records_scheduled_outdoor.2 (fun _ => none) c10gresp "T" 0 _ h₂⟩⟩

/-- C9: normalization is deterministic, and its only time dependence is
the is-the-start-time-in-the-future check: whenever that check agrees
between two evaluation times for every event of the payload, the two
outputs are identical, for both payload shapes. -/
theorem transform_time_dependence :
    (∀ (parseDate : String → Option Int) (r : DKContentResponse)
       (l : String) (t₁ t₂ : Int),
      (∀ e ∈ r.events,
        pastCheckB parseDate e.startEventDate t₁ =
        pastCheckB parseDate e.startEventDate t₂) →
      Content.transformDKResponse parseDate r l t₁ =
      Content.transformDKResponse parseDate r l t₂) ∧
    (∀ (parseDate : String → Option Int) (r : DKEventGroupResponse)
       (l : String) (t₁ t₂ : Int),
      (∀ e ∈ r.eventGroup.events.getD [],
        pastCheckB parseDate e.startDate t₁ =
        pastCheckB parseDate e.startDate t₂) →
      Grouped.transformDKResponse parseDate r l t₁ =
      Grouped.transformDKResponse parseDate r l t₂) := by
  constructor
  · intro pd r l t₁ t₂ h
    unfold Content.transformDKResponse
    exact filterMap_ext_mem _ _ _
      (fun e he => Content.flatEvent_time_inv (h e he))
  · intro pd r l t₁ t₂ h
    unfold Grouped.transformDKResponse
    exact filterMap_ext_mem _ _ _
      (fun e he => Grouped.groupedEvent_time_inv (h e he))

/-- Witness for C9: both parts of `transform_time_dependence`
instantiated on concrete payloads at two distinct clock times at which
every event's past-check agrees. -/
theorem transform_time_dependence_witness :
    Content.transformDKResponse (fun _ => some 10) c10resp "T" 0 =
      Content.transformDKResponse (fun _ => some 10) c10resp "T" 5 ∧
    Grouped.transformDKResponse (fun _ => some 10) c10gresp "T" 0 =
      Grouped.transformDKResponse (fun _ => some 10) c10gresp "T" 5 :=
  ⟨transform_time_dependence.1 (fun _ => some 10) c10resp "T" 0 5
     (by decide),
   transform_time_dependence.2 (fun _ => some 10) c10gresp "T" 0 5
     (by decide)⟩

/-- C8: the response observer applies its admission filters in order —
static-asset/data URLs are dropped before logging; non-2xx statuses
are dropped after logging and before parsing; non-JSON content types
are discarded without parsing; a JSON parse failure on an admitted
response is swallowed (the response is logged, nothing is thrown) and
the handler never lets an exception escape. -/
theorem respHandler_admission :
    (∀ (targets : List Nat) (r : RespEnv),
      isStaticAssetUrl r.url = true ∨ strStartsWith r.url "data:" = true →
      respHandler targets r = ⟨false, false, none, false⟩) ∧
    (∀ (targets : List Nat) (r : RespEnv), r.status ≠ 200 →
      (respHandler targets r).parsed = false ∧
      (respHandler targets r).captured = none) ∧
    (∀ (targets : List Nat) (r : RespEnv),
      strIncludes (r.contentType.getD "") "json" = false →
      (respHandler targets r).parsed = false ∧
      (respHandler targets r).captured = none) ∧
    (∀ (targets : List Nat) (r : RespEnv), r.jsonBody = none →
      (respHandler targets r).captured = none ∧
      (respHandler targets r).raised = false) ∧
    (∀ (targets : List Nat) (r : RespEnv),
      isStaticAssetUrl r.url = false → strStartsWith r.url "data:" = false →
      r.status = 200 → strIncludes (r.contentType.getD "") "json" = true →
      r.jsonBody = none →
      respHandler targets r = ⟨true, true, none, false⟩) ∧
    (∀ (targets : List Nat) (r : RespEnv),
      (respHandler targets r).raised = false) := by
  refine ⟨?_, ?_, ?_, ?_, ?_, ?_⟩
  · intro t r h
    rcases h with h | h
    · simp [respHandler, h]
    · by_cases h1 : isStaticAssetUrl r.url
      · simp [respHandler, h1]
      · simp [respHandler, h1, h]
  · intro t r h
    by_cases h1 : isStaticAssetUrl r.url
    · simp [respHandler, h1]
    · by_cases h2 : strStartsWith r.url "data:"
      · simp [respHandler, h1, h2]
      · simp [respHandler, h1, h2, h]
  · intro t r h
    by_cases h1 : isStaticAssetUrl r.url
    · simp [respHandler, h1]
    · by_cases h2 : strStartsWith r.url "data:"
      · simp [respHandler, h1, h2]
      · by_cases h3 : r.status = 200
        · simp [respHandler, h1, h2, h3, h]
        · simp [respHandler, h1, h2, h3]
  · intro t r h
    by_cases h1 : isStaticAssetUrl r.url
    · simp [respHandler, h1]
    · by_cases h2 : strStartsWith r.url "data:"
      · simp [respHandler, h1, h2]
      · by_cases h3 : r.status = 200
        · by_cases h4 : strIncludes (r.contentType.getD "") "json"
          · simp [respHandler, h1, h2, h3, h4, h]
          · simp [respHandler, h1, h2, h3, h4]
        · simp [respHandler, h1, h2, h3]
  · intro t r h1 h2 h3 h4 h5
    simp [respHandler, h1, h2, h3, h4, h5]
  · intro t r
    unfold respHandler
    split
    · rfl
    · split
      · rfl
      · split
        · rfl
        · split
          · rfl
          · split
            · rfl
            · split
              · split
                · rfl
                · rfl
              · rfl

/-- Witness for C8: the parts of `respHandler_admission` instantiated
at concrete responses — an asset URL, a 404, an HTML content type, and
a JSON response whose body fails to parse. -/
theorem respHandler_admission_witness :
    respHandler [5] ⟨"https://x.com/app.js", 200, some "application/json",
        some (some 5)⟩ = ⟨false, false, none, false⟩ ∧
    ((respHandler [5] ⟨"https://x.com/a", 404, none, none⟩).parsed = false ∧
     (respHandler [5] ⟨"https://x.com/a", 404, none, none⟩).captured =
       none) ∧
    ((respHandler [5] ⟨"https://x.com/a", 200, some "text/html",
        some (some 5)⟩).parsed = false ∧
     (respHandler [5] ⟨"https://x.com/a", 200, some "text/html",
        some (some 5)⟩).captured = none) ∧
    respHandler [5] ⟨"https://x.com/a", 200, some "application/json",
        none⟩ = ⟨true, true, none, false⟩ ∧
    (respHandler [5] ⟨"https://x.com/a", 200, some "application/json",
        some (some 5)⟩).raised = false :=
  ⟨respHandler_admission.1 [5] _ (Or.inl (by decide)),
   respHandler_admission.2.1 [5] ⟨"https://x.com/a", 404, none, none⟩
     (by decide),
   respHandler_admission.2.2.1 [5] _ (by decide),
   respHandler_admission.2.2.2.2.1 [5] _ (by decide) (by decide) rfl
     (by decide) rfl,
   respHandler_admission.2.2.2.2.2 [5] _⟩

/-- C4 counterexample: the claim quantifies over both cited
`parseAmericanOdds` implementations, but the eventGroup-variant parser
(`src/transformer.ts` lines 264-270) performs no Unicode
normalization: on the string `"−200"` written with the U+2212 minus
glyph it returns `null`, while the ASCII-equivalent `"-200"` returns
`-200`. -/
theorem parseAmericanOdds_unicode_cex :
    Grouped.parseAmericanOdds (some "−200") = none ∧
    Grouped.parseAmericanOdds (some "-200") = some (-200) ∧
    (none : Option Int) ≠ some (-200) := by
  refine ⟨by decide, by decide, by decide⟩

/-- C4 amended: the `"EVEN"` and null-on-unparseable behaviors hold
for both parser variants, and the Unicode sign-glyph equivalence holds
for the Content-API variant (lines 41-48): it returns the same value
on any string as on its sign-normalized (U+2212 to ASCII `-`,
U+002B to `+`) form.  The eventGroup variant performs no such
normalization, so U+2212 strings parse to null there. -/
theorem parseAmericanOdds_amended :
    (Content.parseAmericanOdds (some "EVEN") = some 100 ∧
     Grouped.parseAmericanOdds (some "EVEN") = some 100) ∧
    (∀ s : String,
      Content.parseAmericanOdds (some s) =
      Content.parseAmericanOdds
        (some (String.mk (normalizeSignChars s.toList)))) ∧
    (Content.parseAmericanOdds none = none ∧
     Grouped.parseAmericanOdds none = none ∧
     Content.parseAmericanOdds (some "N/A") = none ∧
     Grouped.parseAmericanOdds (some "−200") = none ∧
     Content.parseAmericanOdds (some "−200") = some (-200)) := by
  refine ⟨⟨by decide, by decide⟩, ?_, by decide, by decide, by decide,
    by decide, by decide⟩
  intro s
  show (if s.toList = [] then none
        else if isEvenToken s.toList then some 100
        else jsParseIntChars (normalizeSignChars s.toList))
    = (if (String.mk (normalizeSignChars s.toList)).toList = [] then none
       else if isEvenToken (String.mk (normalizeSignChars s.toList)).toList
         then some 100
       else jsParseIntChars (normalizeSignChars
         (String.mk (normalizeSignChars s.toList)).toList))
  have hl : (String.mk (normalizeSignChars s.toList)).toList =
      normalizeSignChars s.toList := rfl
  rw [hl]
  have hnil : (normalizeSignChars s.toList = []) ↔ (s.toList = []) := by
    simp [normalizeSignChars]
  rw [normalizeSignChars_idem, isEvenToken_normalize]
  simp only [hnil]

/-- A flat payload with two selection entries sharing the same
market/outcome key (`m1`/`Home`), the earlier priced `+100` and the
later priced `+200`. -/
def c1event : DKContentEvent :=
  ⟨"e1", "NOT_STARTED", "D", some "Alice vs Bob", none⟩

def c1market : DKContentMarket := ⟨"m1", "e1", some "Moneyline", none⟩

def c1selEarly : DKContentSelection :=
  ⟨"m1", some "Home", none, some ⟨some "+100"⟩, none⟩

def c1selLate : DKContentSelection :=
  ⟨"m1", some "Home", none, some ⟨some "+200"⟩, none⟩

def c1resp : DKContentResponse :=
  ⟨[c1event], [c1market], [c1selEarly, c1selLate]⟩

/-- C1 counterexample: for two flat-form selection entries sharing the
same market/outcome key, the joined view contains both entries (no
deduplication), and the odds extraction uses the *earlier* one
(`find` returns the first match): the emitted record's home moneyline
is `+100`, from the earlier entry, not the later entry's `+200`. -/
theorem flat_dedup_cex :
    mapGetList (buildIndex (fun s : DKContentSelection => s.marketId)
        [c1selEarly, c1selLate]) "m1" = [c1selEarly, c1selLate] ∧
    (Content.transformDKResponse (fun _ => none) c1resp "T" 0).map
        (fun rec => rec.moneyline_home) = [some 100] ∧
    Content.parseAmericanOdds (some "+200") = some 200 ∧
    (some (100 : Int)) ≠ some 200 := by
  refine ⟨by decide, by decide, by decide, by decide⟩

/-- C1 amended: the lookup structures built by the flat
`transformDKResponse` do not deduplicate — each maps an identifier to
the list of *all* entries with that identifier, in input order (the
market-by-event-id map and the selection-by-market-id map alike); and
when two selections share a market/outcome key the extraction's `find`
uses the one appearing earlier in input order. -/
theorem flat_lookup_amended :
    (∀ (selections : List DKContentSelection) (k : String),
      mapGetList
        (buildIndex (fun s : DKContentSelection => s.marketId) selections)
        k = selections.filter (fun s => s.marketId == k)) ∧
    (∀ (markets : List DKContentMarket) (k : String),
      mapGetList
        (buildIndex (fun m : DKContentMarket => m.eventId) markets)
        k = markets.filter (fun m => m.eventId == k)) :=
  ⟨fun sels k => mapGetList_buildIndex _ sels k,
   fun ms k => mapGetList_buildIndex _ ms k⟩

lemma Grouped.processEvent_categories {parseDate : String → Option Int}
    {now : Int} {tournamentName : String} {event : DKEvent}
    {r r' : DKEventGroupResponse}
    (h : r.eventGroup.offerCategories = r'.eventGroup.offerCategories) :
    Grouped.processEvent parseDate r tournamentName now event =
    Grouped.processEvent parseDate r' tournamentName now event := by
  unfold Grouped.processEvent Grouped.rowOf Grouped.extractOddsForEvent
  rw [h]

/-- A grouped payload whose single event carries a lifecycle state
(`IN_PROGRESS`) that is not a not-yet-started state, yet is outside
the code's `RESULTED`/`STARTED`/`LIVE` blocklist. -/
def c3event : DKEvent :=
  ⟨7, some "Alice vs Bob", "D", "", "", some ⟨"IN_PROGRESS"⟩⟩

def c3resp : DKEventGroupResponse := ⟨⟨11, "G", some [c3event], none⟩⟩

/-- C3 counterexample: the grouped `transformDKResponse` emits a record
for an event whose lifecycle state is `"IN_PROGRESS"` — a state that
indicates the match has begun and is not a not-yet-started state — 
because the code only skips the exact states `RESULTED`, `STARTED` and
`LIVE`. -/
theorem status_filter_cex :
    Grouped.eventState c3event = "IN_PROGRESS" ∧
    (Grouped.transformDKResponse (fun _ => some 10) c3resp "T" 0).length
      = 1 := by
  refine ⟨by decide, by decide⟩

/-- C3 amended: events failing the code's actual admission checks are
never emitted — filtering the event list down to those passing them
leaves the output unchanged.  For the flat variant the status check is
`status === "NOT_STARTED"`; for the grouped variant it is the blocklist
`state ∉ {RESULTED, STARTED, LIVE}` (any other state passes); both
variants further require the parsed start date not to be before the
evaluation time and both resolved participant names to differ from the
`"TBD"` placeholder. -/
theorem status_filter_amended :
    (∀ (parseDate : String → Option Int) (r : DKContentResponse)
       (l : String) (now : Int),
      Content.transformDKResponse parseDate r l now =
      Content.transformDKResponse parseDate
        ⟨r.events.filter (Content.keepEvent parseDate now),
         r.markets, r.selections⟩ l now) ∧
    (∀ (parseDate : String → Option Int) (r : DKEventGroupResponse)
       (l : String) (now : Int),
      Grouped.transformDKResponse parseDate r l now =
      Grouped.transformDKResponse parseDate
        ⟨⟨r.eventGroup.eventGroupId, r.eventGroup.name,
          some ((r.eventGroup.events.getD []).filter
            (Grouped.keepEvent parseDate now)),
          r.eventGroup.offerCategories⟩⟩ l now) := by
  constructor
  · intro pd r l now
    unfold Content.transformDKResponse
    exact filterMap_filter_of_none _ _ _
      (fun e he => Content.flatEvent_none he)
  · intro pd r l now
    unfold Grouped.transformDKResponse
    have step1 :
        (r.eventGroup.events.getD []).filterMap
          (Grouped.processEvent pd r l now) =
        ((r.eventGroup.events.getD []).filter
          (Grouped.keepEvent pd now)).filterMap
          (Grouped.processEvent pd r l now) :=
      filterMap_filter_of_none _ _ _
        (fun e he => Grouped.groupedEvent_none he)
    rw [step1]
    exact filterMap_ext_mem _ _ _
      (fun e _ => Grouped.processEvent_categories rfl)

/-- The full admission condition of the resolver loop: a truthy
identifier, a nonempty resolved name, and survival of the two
exclusion filters (skip-keyword list, then "doubles"). -/
def admitEventGroup (eg : DKEventGroupInfo) : Bool :=
  let name := jsOrOpt eg.eventGroupName
    (jsOrOpt eg.displayName (jsOrOpt eg.name ""))
  !(eg.eventGroupId.getD 0 == 0) && !(name == "") &&
  !(shouldSkipTournament name) && !(strIncludes (toLowerStr name) "doubles")

/-- The tournament built from an admitted event group. -/
def tournamentOf (eg : DKEventGroupInfo) : DKTournament :=
  ⟨eg.eventGroupId.getD 0,
   jsOrOpt eg.eventGroupName (jsOrOpt eg.displayName (jsOrOpt eg.name ""))⟩

lemma tournamentOfGroup_eq (eg : DKEventGroupInfo) :
    tournamentOfGroup eg =
      if admitEventGroup eg then some (tournamentOf eg) else none := by
  unfold tournamentOfGroup admitEventGroup tournamentOf
  by_cases h1 : eg.eventGroupId.getD 0 = 0
  · simp [h1]
  · by_cases h2 : jsOrOpt eg.eventGroupName
        (jsOrOpt eg.displayName (jsOrOpt eg.name "")) = ""
    · simp [h1, h2]
    · by_cases h3 : shouldSkipTournament (jsOrOpt eg.eventGroupName
          (jsOrOpt eg.displayName (jsOrOpt eg.name "")))
      · simp [h1, h2, h3]
      · by_cases h4 : strIncludes (toLowerStr (jsOrOpt eg.eventGroupName
            (jsOrOpt eg.displayName (jsOrOpt eg.name "")))) "doubles"
        · simp [h1, h2, h3, h4]
        · simp [h1, h2, h3, h4]

lemma filterMap_guard {α β : Type} (l : List α) (p : α → Bool)
    (m : α → β) (f : α → Option β)
    (h : ∀ x, f x = if p x then some (m x) else none) :
    l.filterMap f = (l.filter p).map m := by
  induction l with
  | nil => rfl
  | cons x xs ih =>
    by_cases hp : p x
    · rw [List.filterMap_cons, h x, if_pos hp,
        List.filter_cons_of_pos hp, List.map_cons, ih]
    · rw [List.filterMap_cons, h x, if_neg hp,
        List.filter_cons_of_neg (by simpa using hp), ih]

/-- A catalog whose tennis group has one child with a truthy
identifier but no name fields at all: its resolved name is `""`, which
survives both exclusion filters, yet the resolver drops it. -/
def c6child : DKEventGroupInfo := ⟨none, none, none, some 7⟩

def c6cat : NavCatalog := ⟨some [⟨"6", some "Tennis", some [c6child]⟩]⟩

/-- C6 counterexample: the resolver does not return exactly the child
groups surviving the two exclusion filters — a child whose resolved
name is empty survives both filters (the skip-keyword filter and the
"doubles" filter both reject nothing on `""`) but is dropped by the
additional truthy-id/nonempty-name check, so the returned list is
empty. -/
theorem resolver_exactness_cex :
    fetchTennisTournaments ⟨true, 200, some c6cat⟩ = Except.ok [] ∧
    shouldSkipTournament (jsOrOpt c6child.eventGroupName
      (jsOrOpt c6child.displayName (jsOrOpt c6child.name ""))) = false ∧
    strIncludes (toLowerStr (jsOrOpt c6child.eventGroupName
      (jsOrOpt c6child.displayName (jsOrOpt c6child.name ""))))
      "doubles" = false := by
  refine ⟨rfl, by decide, by decide⟩

/-- C6 amended: for every catalog whose sport-group search (identifier
string equality or case-insensitive display-name equality to
`"tennis"`) finds a group, the resolver returns exactly the child
event groups that have a truthy identifier and a nonempty resolved
name and survive the two exclusion filters applied in order, as
tournaments, in catalog order. -/
theorem resolver_exactness_amended :
    ∀ (r : NavFetchResult) (cat : NavCatalog) (g : DKDisplayGroupInfo),
      r.ok = true → r.body = some cat →
      (cat.displayGroupInfos.getD []).find? isTennisGroup = some g →
      fetchTennisTournaments r =
        Except.ok (((g.eventGroupInfos.getD []).filter
          admitEventGroup).map tournamentOf) := by
  intro r cat g hok hbody hfind
  simp only [fetchTennisTournaments, hok, hbody, hfind]
  rw [filterMap_guard _ admitEventGroup tournamentOf tournamentOfGroup
    tournamentOfGroup_eq]
  simp

/-- A concrete catalog exercising the amended resolver statement: one
admitted tournament and one excluded doubles tournament. -/
def c6wchild1 : DKEventGroupInfo :=
  ⟨some "ATP - Delray Beach", none, none, some 12345⟩

def c6wchild2 : DKEventGroupInfo :=
  ⟨some "WTA Doubles - Delray Beach", none, none, some 12346⟩

def c6wgroup : DKDisplayGroupInfo :=
  ⟨"6", some "Tennis", some [c6wchild1, c6wchild2]⟩

def c6wcat : NavCatalog := ⟨some [c6wgroup]⟩

/-- Witness for C6 (amended): `resolver_exactness_amended` applied to
a concrete catalog. -/
theorem resolver_exactness_amended_witness :
    fetchTennisTournaments ⟨true, 200, some c6wcat⟩ =
      Except.ok (((c6wgroup.eventGroupInfos.getD []).filter
        admitEventGroup).map tournamentOf) :=
  resolver_exactness_amended ⟨true, 200, some c6wcat⟩ c6wcat c6wgroup
    rfl rfl (by decide)
